import Mathlib

set_option maxRecDepth 20000

/-!
Shallow embedding of the prediction core of the autofill extension backend:
the module `ai_service.py` (intent normalization, forbidden-answer detection,
answer repair, option matching, predictor orchestration) and the `/predict`
route of `app.py` (pattern-memory lookup, AI fallback, pattern persistence).

Strings are modelled by Lean `String`; the Python string primitives used by
the source (`str.lower`, `str.strip`, substring tests) are re-implemented
below over character lists so that every definition evaluates inside the
kernel.  Confidences are rational numbers; the numeric literals of the
source are given as normalized rationals with bridging equations to the
usual decimal literals.

External collaborators (the Bedrock inference endpoint, the pattern store,
the `config` module) are parameters of the embedding: the inference call is
an input of type `ModelOutcome`, the store lookup an `Option StoredMatch`,
the store write a `SaveOutcome`, and the pattern-memory confidence constant
an explicit rational argument.
-/

/-- ASCII lowercasing of one character, as Python `str.lower` acts on the
ASCII range (every string constant in the repository is ASCII apart from
the typographic apostrophe, which `str.lower` leaves unchanged). -/
def lowerChar (c : Char) : Char :=
  if 'A' ≤ c ∧ c ≤ 'Z' then Char.ofNat (c.toNat + 32) else c

/-- Python `s.lower()`. -/
def pyLower (s : String) : String := ⟨s.data.map lowerChar⟩

/-- Whitespace characters removed by Python `str.strip()`. -/
def isPySpace (c : Char) : Bool :=
  c == ' ' || c == '\t' || c == '\n' || c == '\r' || c == '\x0b' || c == '\x0c'

/-- Python `s.strip()`: drop leading and trailing whitespace. -/
def pyStrip (s : String) : String :=
  ⟨((s.data.dropWhile isPySpace).reverse.dropWhile isPySpace).reverse⟩

/-- Does `pat` occur at the head of `l`? Helper for the substring test. -/
def chStartsWith : List Char → List Char → Bool
  | [], _ => true
  | _ :: _, [] => false
  | n :: ns, h :: hs => n == h && chStartsWith ns hs

/-- Does `needle` occur contiguously inside `hay`? Helper for `pyContains`. -/
def chContains (hay needle : List Char) : Bool :=
  match hay with
  | [] => needle.isEmpty
  | _ :: t => chStartsWith needle hay || chContains t needle

/-- Python `needle in hay` on strings: contiguous substring containment. -/
def pyContains (hay needle : String) : Bool := chContains hay.data needle.data

/-- Python truthiness of an optional string: `None` and `""` are falsy. -/
def pyFalsyO (s : Option String) : Bool :=
  match s with
  | none => true
  | some s => s == ""

/-- An ASCII apostrophe, built from its code point to keep the source file
free of bare apostrophe characters. -/
def apos : String := String.singleton (Char.ofNat 39)

/-- The confidence literal 0.70 of the source, in lowest terms (scientific
literals on `ℚ` do not reduce in the kernel; `c070_eq` bridges the two). -/
def c070 : ℚ := ⟨7, 10, by norm_num, by decide⟩

/-- The confidence literal 0.75 of the source, in lowest terms. -/
def c075 : ℚ := ⟨3, 4, by norm_num, by decide⟩

/-- The confidence literal 0.78 of the source, in lowest terms. -/
def c078 : ℚ := ⟨39, 50, by norm_num, by decide⟩

/-- The confidence literal 0.99 of the source, in lowest terms. -/
def c099 : ℚ := ⟨99, 100, by norm_num, by decide⟩

/-- The confidence literal 0.0 of the source, in lowest terms. -/
def c000 : ℚ := ⟨0, 1, by norm_num, by decide⟩

/-- A sample confidence 0.8 used for concrete evaluations. -/
def c080 : ℚ := ⟨4, 5, by norm_num, by decide⟩

/-- A sample confidence 0.9 used for concrete evaluations. -/
def c090 : ℚ := ⟨9, 10, by norm_num, by decide⟩

lemma c070_eq : c070 = 0.70 := by
  rw [c070, Rat.mk'_eq_divInt, Rat.divInt_eq_div]; norm_num

lemma c075_eq : c075 = 0.75 := by
  rw [c075, Rat.mk'_eq_divInt, Rat.divInt_eq_div]; norm_num

lemma c078_eq : c078 = 0.78 := by
  rw [c078, Rat.mk'_eq_divInt, Rat.divInt_eq_div]; norm_num

lemma c099_eq : c099 = 0.99 := by
  rw [c099, Rat.mk'_eq_divInt, Rat.divInt_eq_div]; norm_num

lemma c000_eq : c000 = 0 := by
  rw [c000, Rat.mk'_eq_divInt, Rat.divInt_eq_div]; norm_num

lemma c080_eq : c080 = 0.8 := by
  rw [c080, Rat.mk'_eq_divInt, Rat.divInt_eq_div]; norm_num

lemma c090_eq : c090 = 0.9 := by
  rw [c090, Rat.mk'_eq_divInt, Rat.divInt_eq_div]; norm_num

/-- ALLOWED_INTENTS of `ai_service.py` (a Python set; only membership is ever
used, so a list is an adequate model). -/
def ALLOWED_INTENTS : List String :=
  ["personal.firstName",
   "personal.lastName",
   "personal.email",
   "personal.phone",
   "personal.linkedin",
   "personal.city",
   "personal.state",
   "personal.country",
   "personal.desiredSalary",
   "personal.additionalInfo",
   "experience.whyFit",
   "experience.summary",
   "workAuthorization.authorizedUS",
   "workAuthorization.needsSponsorship",
   "eeo.gender",
   "eeo.race",
   "eeo.veteran",
   "eeo.disability",
   "unknown"]

/-- INTENT_NORMALIZATION of `ai_service.py`: messy intent keys to canonical
allowed intents. -/
def INTENT_NORMALIZATION : List (String × String) :=
  [("experience", "experience.summary"),
   ("why_fit", "experience.whyFit"),
   ("whyfit", "experience.whyFit"),
   ("personal.additionalinfo", "personal.additionalInfo"),
   ("additionalinfo", "personal.additionalInfo"),
   ("salary", "personal.desiredSalary"),
   ("personal.salary", "personal.desiredSalary"),
   ("personal.desiredsalary", "personal.desiredSalary")]

/-- Python `s.replace(" ", "").replace("-", "").replace("_", "")` as used on
the intent key: every space, hyphen and underscore is removed. -/
def stripSeparators (s : String) : String :=
  ⟨s.data.filter (fun c => !(c == ' ' || c == '-' || c == '_'))⟩

/-- The `_normalize_intent` function of `ai_service.py`.  `intent` is `none`
when the raw value is absent or falsy (the code replaces falsy values by the
empty string before stripping). -/
def _normalize_intent (intent : Option String) (question : String) : String :=
  let raw := pyStrip (intent.getD "")
  let key := stripSeparators (pyLower raw)
  if raw ∈ ALLOWED_INTENTS then raw
  else
    match INTENT_NORMALIZATION.lookup key with
    | some v => v
    | none =>
      let q := pyLower question
      if pyContains q "salary" || pyContains q "compensation" || pyContains q "pay" then
        "personal.desiredSalary"
      else if pyContains q "anything else" || pyContains q "additional" ||
          pyContains q "know about you" then
        "personal.additionalInfo"
      else if pyContains q "strong fit" || pyContains q "why you" ||
          pyContains q "why should we hire" then
        "experience.whyFit"
      else "unknown"

/-- The literal strings matched by FORBIDDEN_ANSWER_PATTERNS of
`ai_service.py`.  Each entry of the source list is a raw Python string of
the shape `"\\b…\\b"`: inside a regular expression the two-character escape
of a backslash denotes one literal backslash, so each pattern matches the
literal text consisting of a backslash, the letter `b`, the phrase, a
backslash and the letter `b` — not a word-boundary-delimited phrase.  The
fourth pattern contains the one genuine metacharacter of the list, an
optional slash, and therefore matches two literal strings.  With the pattern
and the searched string both lowercase, `re.search` with `re.IGNORECASE`
holds exactly when one of the strings below occurs contiguously in the
searched string. -/
def FORBIDDEN_ANSWER_LITERALS : List String :=
  ["\\bnot provided\\b",
   "\\bi don" ++ apos ++ "t know\\b",
   "\\bdo not know\\b",
   "\\bna\\b",
   "\\bn/a\\b",
   "\\bfree text input\\b",
   "\\bno additional information\\b",
   "\\bnothing to add\\b",
   "\\bnot sure\\b"]

/-- The `_is_forbidden_answer` function of `ai_service.py`: strip and
lowercase the candidate; the empty result is forbidden; otherwise search the
compiled pattern list. -/
def _is_forbidden_answer (ans : String) : Bool :=
  let s := pyLower (pyStrip ans)
  if s == "" then true
  else FORBIDDEN_ANSWER_LITERALS.any (fun pat => pyContains s pat)

/-- The fixed preference list `pref` of `_repair_answer`. -/
def REPAIR_PREF : List String :=
  ["Prefer not to say", "Decline to answer", "Decline to state", "Prefer not to disclose"]

/-- The nested loop of `_repair_answer`: for each preference in order, scan
the options in order for one whose stripped lowercase text equals the
lowercase preference; the first hit wins. -/
def prefLoop : List String → List String → Option String
  | [], _ => none
  | p :: ps, opts =>
    match opts.find? (fun opt => pyLower (pyStrip opt) == pyLower p) with
    | some o => some o
    | none => prefLoop ps opts

/-- The salary fallback sentence of `_repair_answer`. -/
def SALARY_FALLBACK : String :=
  "Open to a competitive salary aligned with the role scope, market standards, and total compensation."

/-- The additional-information fallback sentence of `_repair_answer`. -/
def ADDITIONAL_FALLBACK : String :=
  "I’m genuinely excited about this opportunity and would welcome the chance to discuss how I can contribute. I’m quick to learn, dependable, and committed to delivering high-quality work."

/-- The why-fit fallback sentence of `_repair_answer`. -/
def WHYFIT_FALLBACK : String :=
  "I’m a strong fit because I bring consistent execution, clear communication, and a practical mindset. I focus on understanding requirements quickly, delivering reliable outcomes, and collaborating well with teams to move work forward efficiently."

/-- The generic fallback sentence of `_repair_answer`. -/
def GENERIC_FALLBACK : String :=
  "I’m excited about this role and confident I can add value through strong ownership, adaptability, and a results-driven approach. I’m ready to contribute from day one."

/-- The `_repair_answer` function of `ai_service.py`.  `options` is `none`
when the request carries no option list; `if options:` in the source is
Python truthiness, so `none` and the empty list take the same branch. -/
def _repair_answer (question : String) (options : Option (List String)) (intent : String) : String :=
  let q := pyLower question
  let opts := options.getD []
  if opts ≠ [] then
    match prefLoop REPAIR_PREF opts with
    | some o => o
    | none => opts.headD ""
  else if intent == "personal.desiredSalary" || pyContains q "salary" ||
      pyContains q "compensation" then
    SALARY_FALLBACK
  else if intent == "personal.additionalInfo" || pyContains q "anything else" ||
      pyContains q "additional" then
    ADDITIONAL_FALLBACK
  else if intent == "experience.whyFit" || pyContains q "strong fit" ||
      pyContains q "why should" then
    WHYFIT_FALLBACK
  else GENERIC_FALLBACK

/-- The AIRequest model of `models.py`: question, optional option list,
field type and the user profile (an arbitrary key-value mapping, only ever
serialized into the prompt). -/
structure AIRequest where
  question : String
  options : Option (List String)
  fieldType : String
  userProfile : List (String × String)
deriving DecidableEq

/-- The AIResponse model of `models.py`, restricted to the four fields the
embedded code reads or writes (`isNewIntent` and `suggestedIntentName` keep
their defaults everywhere in the source). -/
structure AIResponse where
  answer : String
  confidence : ℚ
  reasoning : Option String
  intent : Option String
deriving DecidableEq

/-- The decoded JSON object `ai_data` produced by `json.loads` inside
`predict_answer`.  Each field is `none` when the key is absent or its value
is falsy and of the wrong type (the code guards `answer` and `reasoning`
with `or ""` and replaces a falsy `intent` by `""`); `confidence` is `none`
when the key is missing or `float()` raises on its value, both of which the
code turns into 0.75. -/
structure ParsedAI where
  answer : Option String
  confidence : Option ℚ
  reasoning : Option String
  intent : Option String
deriving DecidableEq

/-- Outcome of the Bedrock interaction, a parameter of the embedding:
`raises` is any exception thrown from the client construction up to and
including the JSON field accesses (caught by the outer handler of
`predict_answer`); `unparsable` is a content text on which `json.loads`
fails after stripping the code fences; `parsed` carries the decoded
object. -/
inductive ModelOutcome where
  | raises (msg : String)
  | unparsable
  | parsed (d : ParsedAI)
deriving DecidableEq

/-- The process environment as read by `predict_answer`: the two credential
variables (`none` when unset; `AWS_REGION` only feeds the client and is
omitted). -/
structure Env where
  awsAccessKey : Option String
  awsSecretKey : Option String
deriving DecidableEq

/-- The credential check `if not aws_access_key or not aws_secret_key` of
`predict_answer`: an unset or empty variable is falsy. -/
def credentialsMissing (env : Env) : Bool :=
  pyFalsyO env.awsAccessKey || pyFalsyO env.awsSecretKey

/-- Insertion into the dict built by the `lower_map` comprehension: an
existing key keeps its position and receives the new value, a new key is
appended. -/
def upsert : List (String × String) → String → String → List (String × String)
  | [], k, v => [(k, v)]
  | (k0, v0) :: rest, k, v =>
    if k0 == k then (k0, v) :: rest else (k0, v0) :: upsert rest k v

/-- The comprehension `{o.lower().strip(): o for o in request.options}` of
`predict_answer`, as an ordered association list with the duplicate-key
behavior of a Python dict (last writer wins, first position kept). -/
def buildLowerMap (opts : List String) : List (String × String) :=
  opts.foldl (fun m o => upsert m (pyStrip (pyLower o)) o) []

/-- The `synonym_map` dict literal of `predict_answer`. -/
def SYNONYM_MAP : List (String × List String) :=
  [("male", ["man", "cisgender male", "cis male"]),
   ("female", ["woman", "cisgender female", "cis female"]),
   ("man", ["male", "cisgender male", "cis male"]),
   ("woman", ["female", "cisgender female", "cis female"]),
   ("non-binary",
    ["nonbinary", "genderqueer", "gender non-conforming", "gender non-binary",
     "non-binary/non-conforming"]),
   ("yes", ["y", "true", "i do", "authorized"]),
   ("no", ["n", "false", "i do not", "not authorized"])]

/-- The loop `for syn in synonym_map[ans_lower]` of `predict_answer`: the
first synonym that is a key of `lower_map` selects that entry (even when its
value is the empty string; the falsiness of such a value is handled by the
caller, as in the source). -/
def synLoop : List String → List (String × String) → Option String
  | [], _ => none
  | s :: rest, m =>
    match m.lookup s with
    | some v => some v
    | none => synLoop rest m

/-- The synonym step of `predict_answer`: fires only when the stripped
lowercase answer is itself a key of `synonym_map`. -/
def synStage (m : List (String × String)) (rawAnswer : String) : Option String :=
  match SYNONYM_MAP.lookup (pyStrip (pyLower rawAnswer)) with
  | some syns => synLoop syns m
  | none => none

/-- The bidirectional substring loop of `predict_answer`: the first
`lower_map` entry whose key contains, or is contained in, the lowercase
answer wins. -/
def substrLoop : List (String × String) → String → Option String
  | [], _ => none
  | (optLower, optOriginal) :: rest, ansLower =>
    if pyContains ansLower optLower || pyContains optLower ansLower then some optOriginal
    else substrLoop rest ansLower

/-- The candidate computation of the option-matching block of
`predict_answer` (exact case-insensitive lookup, then synonym table, then
substring containment).  Each `if not candidate:` of the source treats both
a missing candidate and an empty-string candidate as absent, which the
`pyFalsyO` tests reproduce; the result is `none` exactly when the final
`if candidate:` of the source falls through to the repair branch. -/
def resolveCandidate (opts : List String) (rawAnswer : String) : Option String :=
  let m := buildLowerMap opts
  let cand1 := m.lookup (pyStrip (pyLower rawAnswer))
  let cand2 := if pyFalsyO cand1 then synStage m rawAnswer else cand1
  let cand3 := if pyFalsyO cand2 then substrLoop m (pyLower rawAnswer) else cand2
  if pyFalsyO cand3 then none else cand3

/-- The clamp `max(0.70, min(conf, 0.99))` of `predict_answer`. -/
def clampConf (c : ℚ) : ℚ := max c070 (min c c099)

/-- The final assembly of the parse-success return of `predict_answer`:
default reasoning when the parsed reasoning is empty, and the safety check
forcing an unexpected intent to "unknown". -/
def finishResponse (rawReason intent answer : String) (conf : ℚ) : AIResponse :=
  { answer := answer
    confidence := conf
    reasoning :=
      some (if rawReason == "" then "Answer chosen to maximize hiring chances." else rawReason)
    intent := some (if intent ∈ ALLOWED_INTENTS then intent else "unknown") }

/-- The post-processing of a successfully decoded `ai_data` in
`predict_answer` (source lines 318 through 381): strip the raw fields,
normalize the intent, coerce and clamp the confidence, repair a forbidden
answer, and reconcile the answer against the option list when one is
present and the answer is not already a verbatim member. -/
def postParse (req : AIRequest) (d : ParsedAI) : AIResponse :=
  let rawAnswer := pyStrip (d.answer.getD "")
  let rawReason := pyStrip (d.reasoning.getD "")
  let intent := _normalize_intent d.intent req.question
  let conf := clampConf (d.confidence.getD c075)
  if _is_forbidden_answer rawAnswer then
    { answer := _repair_answer req.question req.options intent
      confidence := max conf c075
      reasoning := some "Repaired answer to avoid placeholders."
      intent := some intent }
  else if req.options.getD [] ≠ [] ∧ rawAnswer ∉ req.options.getD [] then
    match resolveCandidate (req.options.getD []) rawAnswer with
    | some c => finishResponse rawReason intent c conf
    | none =>
      finishResponse rawReason intent (_repair_answer req.question req.options intent)
        (max conf c075)
  else finishResponse rawReason intent rawAnswer conf

/-- The `predict_answer` function of `ai_service.py`.  The second component
records whether control reached the Bedrock client section (it is `false`
exactly on the early credentials return, which precedes the client
construction and the endpoint invocation). -/
def predict_answer (env : Env) (req : AIRequest) (ext : ModelOutcome) : AIResponse × Bool :=
  if credentialsMissing env then
    ({ answer := "", confidence := c000,
       reasoning := some "AWS Credentials Missing", intent := some "unknown" }, false)
  else
    match ext with
    | .raises msg =>
      ({ answer := "", confidence := c000,
         reasoning := some ("AWS Error: " ++ msg), intent := some "unknown" }, true)
    | .unparsable =>
      let intent := _normalize_intent none req.question
      ({ answer := _repair_answer req.question req.options intent,
         confidence := c078,
         reasoning := some "Fallback response due to formatting issue.",
         intent := some intent }, true)
    | .parsed d => (postParse req d, true)

/-- One entry of the `answerMappings` list of a stored pattern, as the
`/predict` route reads it: every field access is `dict.get` with a default,
so each field is optional. -/
structure StoredMapping where
  canonicalValue : Option String
  variants : Option (List String)
  contextOptions : Option (List String)
deriving DecidableEq

/-- A truthy result of the pattern-store lookup `search_pattern(question)`
as read by the `/predict` route (field accesses are `dict.get`). -/
structure StoredMatch where
  intent : Option String
  answerMappings : Option (List StoredMapping)
deriving DecidableEq

/-- One entry of the `answerMappings` list that the `/predict` route writes
into a new Pattern. -/
structure PatternMapping where
  canonicalValue : String
  variants : List String
  contextOptions : List String
deriving DecidableEq

/-- The Pattern model of `models.py`, restricted to the fields the
`/predict` route sets (the remaining fields keep their model defaults). -/
structure Pattern where
  questionPattern : String
  intent : Option String
  fieldType : String
  confidence : ℚ
  source : String
  answerMappings : List PatternMapping
deriving DecidableEq

/-- Outcome of a `save_pattern` call, a parameter of the embedding. -/
inductive SaveOutcome where
  | ok
  | failed
  | raised
deriving DecidableEq

/-- The answer extraction of the pattern-memory branch of `/predict`:
first variant of the first mapping, else its canonical value, else the
empty string (in particular when `answerMappings` is absent or empty). -/
def hitAnswer (m : StoredMatch) : String :=
  match m.answerMappings.getD [] with
  | [] => ""
  | m0 :: _ =>
    match m0.variants.getD [] with
    | [] => m0.canonicalValue.getD ""
    | v :: _ => v

/-- The AI branch of the `/predict` route: run the predictor, force a falsy
intent to "unknown", and attempt to persist a usable result.  Inside the
`try` block the source evaluates `request.userEmail`, but `AIRequest`
declares no `userEmail` field, so the access raises `AttributeError` before
`save_pattern` is called; the bare `except Exception: pass` swallows it.
Consequently no pattern ever reaches the store (second component `none`),
and the save outcome cannot influence the returned response. -/
def facadeAIBranch (env : Env) (req : AIRequest) (ext : ModelOutcome) (_save : SaveOutcome) :
    AIResponse × Option Pattern :=
  let ai := (predict_answer env req ext).1
  let ai := if pyFalsyO ai.intent then { ai with intent := some "unknown" } else ai
  (ai, none)

/-- The `/predict` route of `app.py`: pattern memory first, then the AI
branch.  `pmConf` stands for `config.PATTERN_MEMORY_CONFIDENCE`; modelled
from the spec: `config.py` is not part of the sources, and the spec fixes
only that the hit path is tagged with a fixed pattern-memory confidence
constant, so the embedding takes it as a parameter.  `store` is the result
of `search_pattern(request.question)` (`none` for a falsy result). -/
def predictFacade (pmConf : ℚ) (store : Option StoredMatch) (env : Env) (req : AIRequest)
    (ext : ModelOutcome) (save : SaveOutcome) : AIResponse × Option Pattern :=
  match store with
  | some m =>
    if hitAnswer m ≠ "" then
      ({ answer := hitAnswer m, confidence := pmConf,
         reasoning := some "Retrieved from Pattern Memory", intent := m.intent }, none)
    else facadeAIBranch env req ext save
  | none => facadeAIBranch env req ext save


/-- A successful association-list lookup returns a stored value. -/
lemma lookup_exists_pair {α β : Type} [BEq α] {m : List (α × β)} {k : α} {v : β}
    (h : m.lookup k = some v) : ∃ k', (k', v) ∈ m := by
  induction m with
  | nil => simp [List.lookup] at h
  | cons p rest ih =>
    rw [List.lookup] at h
    split at h
    · obtain ⟨rfl⟩ : p.2 = v := Option.some.inj h
      exact ⟨p.1, List.mem_cons_self _ _⟩
    · obtain ⟨k', hk⟩ := ih h
      exact ⟨k', List.mem_cons_of_mem _ hk⟩

/-- A value found in an updated association list is the inserted value or a
value of the original list. -/
lemma upsert_mem {m : List (String × String)} {k0 v0 k v : String}
    (h : (k, v) ∈ upsert m k0 v0) : v = v0 ∨ ∃ k1, (k1, v) ∈ m := by
  induction m with
  | nil =>
    simp [upsert] at h
    exact Or.inl h.2
  | cons p rest ih =>
    obtain ⟨a, b⟩ := p
    rw [upsert] at h
    split at h
    · rcases List.mem_cons.mp h with he | hr
      · exact Or.inl (Prod.mk.injEq .. ▸ he).2
      · exact Or.inr ⟨k, List.mem_cons_of_mem _ hr⟩
    · rcases List.mem_cons.mp h with he | hr
      · exact Or.inr ⟨k, he ▸ List.mem_cons_self _ _⟩
      · rcases ih hr with hv | ⟨k1, hk1⟩
        · exact Or.inl hv
        · exact Or.inr ⟨k1, List.mem_cons_of_mem _ hk1⟩

/-- Every value of the folded lower map comes from the accumulator or from
the option list. -/
lemma buildLowerMap_aux (opts : List String) (acc : List (String × String)) {k v : String}
    (h : (k, v) ∈ opts.foldl (fun m o => upsert m (pyStrip (pyLower o)) o) acc) :
    v ∈ opts ∨ ∃ k1, (k1, v) ∈ acc := by
  induction opts generalizing acc with
  | nil => exact Or.inr ⟨k, h⟩
  | cons o os ih =>
    rcases ih (upsert acc (pyStrip (pyLower o)) o) h with hv | ⟨k1, hk1⟩
    · exact Or.inl (List.mem_cons_of_mem _ hv)
    · rcases upsert_mem hk1 with rfl | ⟨k2, hk2⟩
      · exact Or.inl (List.mem_cons_self _ _)
      · exact Or.inr ⟨k2, hk2⟩

/-- Every value of the lower map is one of the original options. -/
lemma buildLowerMap_mem {opts : List String} {k v : String}
    (h : (k, v) ∈ buildLowerMap opts) : v ∈ opts := by
  rcases buildLowerMap_aux opts [] h with hv | ⟨k1, hk1⟩
  · exact hv
  · simp at hk1

/-- A synonym-loop hit is a value of the lower map. -/
lemma synLoop_exists {syns : List String} {m : List (String × String)} {v : String}
    (h : synLoop syns m = some v) : ∃ k', (k', v) ∈ m := by
  induction syns with
  | nil => simp [synLoop] at h
  | cons s rest ih =>
    rw [synLoop] at h
    split at h
    · exact lookup_exists_pair (by rw [‹m.lookup s = some _›, Option.some.injEq]; exact Option.some.inj h)
    · exact ih h

/-- A synonym-stage hit is a value of the lower map. -/
lemma synStage_exists {m : List (String × String)} {raw v : String}
    (h : synStage m raw = some v) : ∃ k', (k', v) ∈ m := by
  rw [synStage] at h
  split at h
  · exact synLoop_exists h
  · simp at h

/-- A substring-loop hit is a value of the scanned association list. -/
lemma substrLoop_exists {m : List (String × String)} {ansLower v : String}
    (h : substrLoop m ansLower = some v) : ∃ k', (k', v) ∈ m := by
  induction m with
  | nil => simp [substrLoop] at h
  | cons p rest ih =>
    obtain ⟨a, b⟩ := p
    rw [substrLoop] at h
    split at h
    · exact ⟨a, by simp [Option.some.inj h]⟩
    · obtain ⟨k', hk⟩ := ih h
      exact ⟨k', List.mem_cons_of_mem _ hk⟩

/-- Case analysis on a conditional that must have produced `some c`. -/
lemma ite_some_elim {b : Prop} [Decidable b] {x y : Option String} {c : String} {P : Prop}
    (h : (if b then x else y) = some c) (hx : x = some c → P) (hy : y = some c → P) : P := by
  split at h
  · exact hx h
  · exact hy h

/-- Whatever candidate the option-matching block resolves is one of the
options of the request. -/
lemma resolveCandidate_mem {opts : List String} {raw c : String}
    (h : resolveCandidate opts raw = some c) : c ∈ opts := by
  unfold resolveCandidate at h
  refine ite_some_elim h (fun h3 => by simp at h3) (fun h3 => ?_)
  refine ite_some_elim h3 (fun h2 => buildLowerMap_mem (substrLoop_exists h2).choose_spec)
    (fun h2 => ?_)
  refine ite_some_elim h2 (fun h1 => buildLowerMap_mem (synStage_exists h1).choose_spec)
    (fun h1 => buildLowerMap_mem (lookup_exists_pair h1).choose_spec)

/-- A preference-loop hit is one of the options. -/
lemma prefLoop_mem {ps opts : List String} {o : String}
    (h : prefLoop ps opts = some o) : o ∈ opts := by
  induction ps with
  | nil => simp [prefLoop] at h
  | cons p rest ih =>
    rw [prefLoop] at h
    cases hf : List.find? (fun opt => pyLower (pyStrip opt) == pyLower p) opts with
    | none => simp only [hf] at h; exact ih h
    | some v =>
      simp only [hf] at h
      exact Option.some.inj h ▸ List.mem_of_find?_eq_some hf

/-- The default head of a non-empty list is its head, hence a member. -/
lemma headD_mem {l : List String} {d : String} (h : l ≠ []) : l.headD d ∈ l := by
  cases l with
  | nil => exact absurd rfl h
  | cons a t => exact List.mem_cons_self _ _

/-- With a non-empty option list, the repaired answer is one of the
options. -/
lemma repair_mem (q : String) (options : Option (List String)) (intent : String)
    (h : options.getD [] ≠ []) : _repair_answer q options intent ∈ options.getD [] := by
  simp only [_repair_answer]
  rw [if_pos h]
  split
  · exact prefLoop_mem ‹_›
  · exact headD_mem h

/-- A string the detector does not flag is non-empty. -/
lemma not_forbidden_ne_empty {s : String} (h : _is_forbidden_answer s = false) : s ≠ "" := by
  intro he
  subst he
  exact absurd h (by decide)

/-- When every supplied option passes the detector, so does the repaired
answer (in the no-options branches it is one of the four fixed sentences,
none of which the compiled patterns match). -/
lemma repair_not_forbidden (q : String) (options : Option (List String)) (intent : String)
    (h : ∀ o ∈ options.getD [], _is_forbidden_answer o = false) :
    _is_forbidden_answer (_repair_answer q options intent) = false := by
  by_cases hne : options.getD [] = []
  · simp only [_repair_answer]
    rw [if_neg (by rw [hne]; simp)]
    split_ifs <;> decide
  · exact h _ (repair_mem q options intent hne)

/-- The normalized intent is always a member of the allowed set. -/
lemma normalize_intent_allowed (intent : Option String) (question : String) :
    _normalize_intent intent question ∈ ALLOWED_INTENTS := by
  simp only [_normalize_intent]
  split
  · assumption
  · split
    · have hall : ∀ kv ∈ INTENT_NORMALIZATION, kv.2 ∈ ALLOWED_INTENTS := by decide
      obtain ⟨k', hk⟩ := lookup_exists_pair ‹_›
      exact hall _ hk
    · split_ifs <;> decide

/-- The clamp never goes below 0.70. -/
lemma clampConf_ge (c : ℚ) : c070 ≤ clampConf c := le_max_left _ _

/-- The clamp never exceeds 0.99. -/
lemma clampConf_le (c : ℚ) : clampConf c ≤ c099 :=
  max_le (by decide) (min_le_right _ _)

/-- The repaired-path confidence stays at or above 0.70. -/
lemma conf_repair_ge (c : ℚ) : c070 ≤ max (clampConf c) c075 :=
  le_trans (clampConf_ge c) (le_max_left _ _)

/-- The repaired-path confidence stays at or below 0.99. -/
lemma conf_repair_le (c : ℚ) : max (clampConf c) c075 ≤ c099 :=
  max_le (clampConf_le c) (by decide)

/-- The intent written by `finishResponse` is always an allowed member. -/
lemma finishResponse_intent (rawReason intent answer : String) (conf : ℚ) :
    ∃ i, (finishResponse rawReason intent answer conf).intent = some i ∧ i ∈ ALLOWED_INTENTS := by
  simp only [finishResponse]
  split_ifs with h
  · exact ⟨intent, rfl, h⟩
  · exact ⟨"unknown", rfl, by decide⟩

/-- Confidence bounds of the parse-success post-processing, for any decoded
object and any request. -/
lemma postParse_conf_bounds (req : AIRequest) (d : ParsedAI) :
    c070 ≤ (postParse req d).confidence ∧ (postParse req d).confidence ≤ c099 := by
  simp only [postParse]
  split
  · exact ⟨conf_repair_ge _, conf_repair_le _⟩
  · split
    · split
      · exact ⟨clampConf_ge _, clampConf_le _⟩
      · exact ⟨conf_repair_ge _, conf_repair_le _⟩
    · exact ⟨clampConf_ge _, clampConf_le _⟩

/-- Answer guarantees of the parse-success post-processing when every
supplied option passes the detector. -/
lemma postParse_answer_ok (req : AIRequest) (d : ParsedAI)
    (hopts : ∀ o ∈ req.options.getD [], _is_forbidden_answer o = false) :
    (postParse req d).answer ≠ "" ∧ _is_forbidden_answer (postParse req d).answer = false := by
  simp only [postParse, finishResponse]
  split
  · have hf := repair_not_forbidden req.question req.options
      (_normalize_intent d.intent req.question) hopts
    exact ⟨not_forbidden_ne_empty hf, hf⟩
  · rename_i hforb
    have hf0 : _is_forbidden_answer (pyStrip (d.answer.getD "")) = false :=
      Bool.not_eq_true _ ▸ hforb
    split
    · split
      · rename_i c hc
        have hmem := resolveCandidate_mem hc
        have hf := hopts c hmem
        exact ⟨not_forbidden_ne_empty hf, hf⟩
      · have hrep := repair_not_forbidden req.question req.options
          (_normalize_intent d.intent req.question) hopts
        exact ⟨not_forbidden_ne_empty hrep, hrep⟩
    · exact ⟨not_forbidden_ne_empty hf0, hf0⟩

/-- The intent field of the parse-success post-processing is always an
allowed member. -/
lemma postParse_intent (req : AIRequest) (d : ParsedAI) :
    ∃ i, (postParse req d).intent = some i ∧ i ∈ ALLOWED_INTENTS := by
  simp only [postParse]
  split
  · exact ⟨_, rfl, normalize_intent_allowed _ _⟩
  · split
    · split
      · exact finishResponse_intent _ _ _ _
      · exact finishResponse_intent _ _ _ _
    · exact finishResponse_intent _ _ _ _

/-- Confidence bounds of every non-credentials, non-exception return of the
predictor. -/
lemma predict_answer_conf_bounds (env : Env) (req : AIRequest) (ext : ModelOutcome)
    (hcred : credentialsMissing env = false) (hra : ∀ msg, ext ≠ ModelOutcome.raises msg) :
    c070 ≤ ((predict_answer env req ext).1).confidence ∧
      ((predict_answer env req ext).1).confidence ≤ c099 := by
  simp only [predict_answer, hcred, Bool.false_eq_true, if_false]
  cases ext with
  | raises msg => exact absurd rfl (hra msg)
  | unparsable =>
    show c070 ≤ c078 ∧ c078 ≤ c099
    exact ⟨by decide, by decide⟩
  | parsed d => exact postParse_conf_bounds req d

/-- Answer guarantees of every non-credentials, non-exception return of the
predictor, when every supplied option passes the detector. -/
lemma predict_answer_answer_ok (env : Env) (req : AIRequest) (ext : ModelOutcome)
    (hcred : credentialsMissing env = false) (hra : ∀ msg, ext ≠ ModelOutcome.raises msg)
    (hopts : ∀ o ∈ req.options.getD [], _is_forbidden_answer o = false) :
    ((predict_answer env req ext).1).answer ≠ "" ∧
      _is_forbidden_answer ((predict_answer env req ext).1).answer = false := by
  simp only [predict_answer, hcred, Bool.false_eq_true, if_false]
  cases ext with
  | raises msg => exact absurd rfl (hra msg)
  | unparsable =>
    have hrep := repair_not_forbidden req.question req.options
      (_normalize_intent none req.question) hopts
    exact ⟨not_forbidden_ne_empty hrep, hrep⟩
  | parsed d => exact postParse_answer_ok req d hopts

/-- The two terminal error states of the predictor return the empty answer
with confidence 0. -/
lemma predict_answer_error_props (env : Env) (req : AIRequest) (ext : ModelOutcome)
    (h : credentialsMissing env = true ∨ ∃ msg, ext = ModelOutcome.raises msg) :
    ((predict_answer env req ext).1).answer = "" ∧
      ((predict_answer env req ext).1).confidence = c000 := by
  rcases h with hc | ⟨msg, rfl⟩
  · unfold predict_answer
    rw [if_pos hc]
    exact ⟨rfl, rfl⟩
  · unfold predict_answer
    split
    · exact ⟨rfl, rfl⟩
    · exact ⟨rfl, rfl⟩

/-- The intent of the predictor is always present and an allowed member. -/
lemma predict_answer_intent_allowed (env : Env) (req : AIRequest) (ext : ModelOutcome) :
    ∃ i, ((predict_answer env req ext).1).intent = some i ∧ i ∈ ALLOWED_INTENTS := by
  simp only [predict_answer]
  split
  · exact ⟨"unknown", rfl, by decide⟩
  · cases ext with
    | raises msg => exact ⟨"unknown", rfl, by decide⟩
    | unparsable => exact ⟨_, rfl, normalize_intent_allowed _ _⟩
    | parsed d => exact postParse_intent req d

/-- When the answer of the predictor is non-empty, its confidence is within the
clamp interval (the two empty-answer states are the only ones outside it). -/
lemma predict_answer_usable_conf (env : Env) (req : AIRequest) (ext : ModelOutcome)
    (h : ((predict_answer env req ext).1).answer ≠ "") :
    c070 ≤ ((predict_answer env req ext).1).confidence ∧
      ((predict_answer env req ext).1).confidence ≤ c099 := by
  by_cases hcred : credentialsMissing env = true
  · exact absurd (predict_answer_error_props env req ext (Or.inl hcred)).1 h
  · by_cases hra : ∃ msg, ext = ModelOutcome.raises msg
    · exact absurd (predict_answer_error_props env req ext (Or.inr hra)).1 h
    · push_neg at hra
      exact predict_answer_conf_bounds env req ext (Bool.not_eq_true _ ▸ hcred) hra

/-- The AI branch leaves the answer and confidence of the predictor untouched
and always carries a non-null allowed intent (the falsy-intent patch can
only install "unknown"). -/
lemma facadeAIBranch_props (env : Env) (req : AIRequest) (ext : ModelOutcome)
    (save : SaveOutcome) :
    (facadeAIBranch env req ext save).1.answer = (predict_answer env req ext).1.answer ∧
    (facadeAIBranch env req ext save).1.confidence = (predict_answer env req ext).1.confidence ∧
    (∃ i, (facadeAIBranch env req ext save).1.intent = some i ∧ i ∈ ALLOWED_INTENTS) := by
  obtain ⟨i, hi, hmem⟩ := predict_answer_intent_allowed env req ext
  simp only [facadeAIBranch]
  split
  · exact ⟨rfl, rfl, ⟨"unknown", rfl, by decide⟩⟩
  · exact ⟨rfl, rfl, ⟨i, hi, hmem⟩⟩

/-- A process environment with both credentials present. -/
def envOK : Env := ⟨some "AKIA", some "SECRET"⟩

/-- A process environment with the access key unset. -/
def envNoCreds : Env := ⟨none, some "SECRET"⟩

/-- The work-authorization request of the scenario in the spec. -/
def reqAuth : AIRequest :=
  ⟨"Are you authorized to work in the US?", some ["Yes", "No"], "select", []⟩

/-- A decoded model output answering "authorized" with confidence 0.70. -/
def dAuthorized : ParsedAI :=
  ⟨some "authorized", some c070, none, some "workAuthorization.authorizedUS"⟩

/-- A decoded model output answering "Yes" with confidence 0.9. -/
def dYes : ParsedAI := ⟨some "Yes", some c090, none, some "workAuthorization.authorizedUS"⟩

/-- A request whose only option is the empty string. -/
def reqEmptyOpt : AIRequest := ⟨"q", some [""], "text", []⟩

/-- A decoded model output with an empty answer and confidence 0.8. -/
def dEmptyAnswer : ParsedAI := ⟨some "", some c080, none, none⟩

/-- A stored match carrying a usable variant but no intent key. -/
def mNoIntent : StoredMatch := ⟨none, some [⟨none, some ["Yes"], none⟩]⟩

/-- A stored match whose answerMappings list is empty. -/
def mEmptyMappings : StoredMatch := ⟨some "eeo.gender", some []⟩

/-- The option list of the repair scenario in the spec. -/
def optsEEO : List String := ["Decline to answer", "Male", "Female"]

/-- C1 counterexample: with the option list [""] and a successfully parsed
model output whose answer field is empty, the predictor reaches a
non-CredentialsMissing, non-ServiceError return whose answer is the empty
string (flagged by the detector) while its confidence is 0.8 rather than
0.0: the repair step returned the empty first option. -/
theorem C1_counterexample :
    (predict_answer envOK reqEmptyOpt (ModelOutcome.parsed dEmptyAnswer)).1.answer = "" ∧
    (predict_answer envOK reqEmptyOpt (ModelOutcome.parsed dEmptyAnswer)).1.confidence = c080 ∧
    c080 ≠ c000 ∧ c080 = 0.8 ∧
    _is_forbidden_answer
      (predict_answer envOK reqEmptyOpt (ModelOutcome.parsed dEmptyAnswer)).1.answer = true :=
  ⟨by decide, by decide, by decide, c080_eq, by decide⟩

/-- C1 (amended): provided every supplied option passes the Forbidden-Answer
Detector, every predictor return other than the CredentialsMissing and
ServiceError terminal states has confidence in the closed interval
[0.70, 0.99] and a non-empty answer the detector does not flag; the two
exempt states return exactly the empty answer with confidence 0.0. -/
theorem C1_theorem (env : Env) (req : AIRequest) (ext : ModelOutcome)
    (hopts : ∀ o ∈ req.options.getD [], _is_forbidden_answer o = false) :
    ((credentialsMissing env = false ∧ ∀ msg, ext ≠ ModelOutcome.raises msg) →
      (0.70 ≤ (predict_answer env req ext).1.confidence ∧
       (predict_answer env req ext).1.confidence ≤ 0.99 ∧
       (predict_answer env req ext).1.answer ≠ "" ∧
       _is_forbidden_answer (predict_answer env req ext).1.answer = false)) ∧
    ((credentialsMissing env = true ∨ ∃ msg, ext = ModelOutcome.raises msg) →
      ((predict_answer env req ext).1.answer = "" ∧
       (predict_answer env req ext).1.confidence = 0)) := by
  constructor
  · rintro ⟨hcred, hra⟩
    obtain ⟨h1, h2⟩ := predict_answer_conf_bounds env req ext hcred hra
    obtain ⟨h3, h4⟩ := predict_answer_answer_ok env req ext hcred hra hopts
    exact ⟨c070_eq ▸ h1, c099_eq ▸ h2, h3, h4⟩
  · intro h
    obtain ⟨h1, h2⟩ := predict_answer_error_props env req ext h
    exact ⟨h1, c000_eq ▸ h2⟩

/-- C1 witness: the amended invariant instantiated on the scenario request,
whose options "Yes" and "No" pass the detector. -/
theorem C1_witness :
    (predict_answer envOK reqAuth (ModelOutcome.parsed dYes)).1.answer ≠ "" ∧
    0.70 ≤ (predict_answer envOK reqAuth (ModelOutcome.parsed dYes)).1.confidence :=
  have h := C1_theorem envOK reqAuth (ModelOutcome.parsed dYes) (by decide)
  have hs := h.1 ⟨by decide, fun msg hmsg => ModelOutcome.noConfusion hmsg⟩
  ⟨hs.2.2.1, hs.1⟩

/-- C2: the Forbidden-Answer Detector does not flag the placeholder phrases.
The source patterns are raw strings of the form "\\b…\\b", and inside a
regular expression the doubled backslash denotes one literal backslash, so
each pattern matches only literal backslash-b-delimited text and never an
ordinary placeholder phrase.  The detector still flags the empty string,
and it does flag the literal text the patterns actually denote. -/
theorem C2_code_bug_eval :
    _is_forbidden_answer "not provided" = false ∧
    _is_forbidden_answer "Not sure, I do not know" = false ∧
    _is_forbidden_answer "N/A" = false ∧
    _is_forbidden_answer "" = true ∧
    _is_forbidden_answer "   " = true ∧
    _is_forbidden_answer "\\bnot provided\\b" = true :=
  ⟨by decide, by decide, by decide, by decide, by decide, by decide⟩

/-- C3 counterexample: a pattern-memory hit whose stored pattern has no
intent key is served with a non-empty answer at the pattern-memory
confidence (0.9 here), yet its intent is null, hence not a member of the
Allowed Intent Set. -/
theorem C3_counterexample :
    (predictFacade c090 (some mNoIntent) envOK reqAuth (ModelOutcome.parsed dYes)
      SaveOutcome.ok).1.answer = "Yes" ∧
    0.70 ≤ (predictFacade c090 (some mNoIntent) envOK reqAuth (ModelOutcome.parsed dYes)
      SaveOutcome.ok).1.confidence ∧
    (predictFacade c090 (some mNoIntent) envOK reqAuth (ModelOutcome.parsed dYes)
      SaveOutcome.ok).1.intent = none := by
  refine ⟨by decide, ?_, by decide⟩
  rw [show (predictFacade c090 (some mNoIntent) envOK reqAuth (ModelOutcome.parsed dYes)
      SaveOutcome.ok).1.confidence = c090 from by decide, c090_eq]
  norm_num

/-- C3 (amended): every response the /predict flow produces through the
predictor path (store miss, or a hit whose extracted answer is empty) with
a non-empty answer has confidence in [0.70, 0.99] and a non-null intent
belonging to the Allowed Intent Set; a pattern-memory hit is served with
the stored intent and the fixed pattern-memory confidence verbatim, so its
intent is an allowed member only when the stored one is. -/
theorem C3_theorem (pmConf : ℚ) (store : Option StoredMatch) (env : Env) (req : AIRequest)
    (ext : ModelOutcome) (save : SaveOutcome) :
    ((store = none ∨ ∃ m, store = some m ∧ hitAnswer m = "") →
      (predictFacade pmConf store env req ext save).1.answer ≠ "" →
      (0.70 ≤ (predictFacade pmConf store env req ext save).1.confidence ∧
       (predictFacade pmConf store env req ext save).1.confidence ≤ 0.99 ∧
       ∃ i, (predictFacade pmConf store env req ext save).1.intent = some i ∧
         i ∈ ALLOWED_INTENTS)) ∧
    (∀ m, store = some m → hitAnswer m ≠ "" →
      ((predictFacade pmConf store env req ext save).1.answer = hitAnswer m ∧
       (predictFacade pmConf store env req ext save).1.confidence = pmConf ∧
       (predictFacade pmConf store env req ext save).1.intent = m.intent)) := by
  constructor
  · intro hmiss hans
    have hbr : predictFacade pmConf store env req ext save = facadeAIBranch env req ext save := by
      rcases hmiss with rfl | ⟨m, rfl, hm⟩
      · rfl
      · simp only [predictFacade]
        rw [if_neg (fun hne => hne hm)]
    rw [hbr] at hans ⊢
    obtain ⟨ha, hc, hi⟩ := facadeAIBranch_props env req ext save
    rw [ha] at hans
    obtain ⟨h1, h2⟩ := predict_answer_usable_conf env req ext hans
    exact ⟨hc ▸ c070_eq ▸ h1, hc ▸ c099_eq ▸ h2, hi⟩
  · rintro m rfl hm
    simp only [predictFacade]
    rw [if_pos hm]
    exact ⟨rfl, rfl, rfl⟩

/-- C3 witness: the amended statement instantiated on a store miss with a
usable predictor answer. -/
theorem C3_witness :
    0.70 ≤ (predictFacade c090 none envOK reqAuth (ModelOutcome.parsed dYes)
      SaveOutcome.ok).1.confidence :=
  ((C3_theorem c090 none envOK reqAuth (ModelOutcome.parsed dYes) SaveOutcome.ok).1
    (Or.inl rfl) (by decide)).1

/-- The preference loop realizes a first-match search: when no preference
has a matching option it fails, and when the first preference with a
matching option (in preference-list order) is found, the loop returns
exactly the first option (in option-list order) matching that
preference. -/
lemma prefLoop_first_match (ps opts : List String) :
    (ps.find? (fun p => opts.any (fun o => pyLower (pyStrip o) == pyLower p)) = none →
      prefLoop ps opts = none) ∧
    (∀ p₀, ps.find? (fun p => opts.any (fun o => pyLower (pyStrip o) == pyLower p)) = some p₀ →
      ∃ r, prefLoop ps opts = some r ∧
        opts.find? (fun o => pyLower (pyStrip o) == pyLower p₀) = some r) := by
  induction ps with
  | nil => exact ⟨fun _ => rfl, fun p₀ hp => by simp at hp⟩
  | cons p rest ih =>
    by_cases hany : opts.any (fun o => pyLower (pyStrip o) == pyLower p) = true
    · have hcons :
          List.find? (fun pp => opts.any (fun o => pyLower (pyStrip o) == pyLower pp))
            (p :: rest) = some p := by
        simp only [List.find?, hany]
      constructor
      · intro hn
        rw [hcons] at hn
        exact absurd hn (by simp)
      · intro p₀ hp
        rw [hcons] at hp
        obtain rfl : p = p₀ := Option.some.inj hp
        cases hf : List.find? (fun o => pyLower (pyStrip o) == pyLower p) opts with
        | none =>
          rw [List.find?_eq_none] at hf
          obtain ⟨o, ho, hpred⟩ := List.any_eq_true.mp hany
          exact absurd hpred (by simpa using hf o ho)
        | some v =>
          exact ⟨v, by rw [prefLoop, hf], rfl⟩
    · have hany' : opts.any (fun o => pyLower (pyStrip o) == pyLower p) = false :=
        Bool.not_eq_true _ ▸ hany
      have hcons :
          List.find? (fun pp => opts.any (fun o => pyLower (pyStrip o) == pyLower pp))
            (p :: rest) =
          List.find? (fun pp => opts.any (fun o => pyLower (pyStrip o) == pyLower pp))
            rest := by
        simp only [List.find?, hany']
      have hfopt : List.find? (fun o => pyLower (pyStrip o) == pyLower p) opts = none := by
        rw [List.find?_eq_none]
        intro o ho
        simpa using List.any_eq_false.mp hany' o ho
      have hstep : prefLoop (p :: rest) opts = prefLoop rest opts := by
        rw [prefLoop, hfopt]
      constructor
      · intro hn
        rw [hcons] at hn
        rw [hstep]
        exact ih.1 hn
      · intro p₀ hp
        rw [hcons] at hp
        obtain ⟨r, hr, hfr⟩ := ih.2 p₀ hp
        exact ⟨r, hstep ▸ hr, hfr⟩

/-- C4: with a non-empty option list the Answer Repairer returns a member of
that list (hence with its original casing); when no preference has a
matching option it returns the first option unconditionally; and when some
preference does match, then with p₀ the first preference — in the fixed
order "Prefer not to say", "Decline to answer", "Decline to state", "Prefer
not to disclose" — whose lowercase text some option equals after stripping
and lowercasing, the returned value is exactly the first option in list
order equal to p₀: the first such option found by the search, returned
verbatim. -/
theorem C4_theorem (opts : List String) (q intent : String) (h : opts ≠ []) :
    _repair_answer q (some opts) intent ∈ opts ∧
    (REPAIR_PREF.find? (fun p => opts.any (fun o => pyLower (pyStrip o) == pyLower p)) = none →
      _repair_answer q (some opts) intent = opts.headD "") ∧
    (∀ p₀,
      REPAIR_PREF.find? (fun p => opts.any (fun o => pyLower (pyStrip o) == pyLower p))
        = some p₀ →
      opts.find? (fun o => pyLower (pyStrip o) == pyLower p₀)
        = some (_repair_answer q (some opts) intent)) := by
  refine ⟨repair_mem q (some opts) intent h, ?_, ?_⟩
  · intro hnone
    simp only [_repair_answer, Option.getD_some]
    rw [if_pos h, (prefLoop_first_match REPAIR_PREF opts).1 hnone]
  · intro p₀ hp
    obtain ⟨r, hr, hfr⟩ := (prefLoop_first_match REPAIR_PREF opts).2 p₀ hp
    have hrep : _repair_answer q (some opts) intent = r := by
      simp only [_repair_answer, Option.getD_some]
      rw [if_pos h, hr]
    rw [hrep]
    exact hfr

/-- C4 witness: on the scenario option list of the spec the first matched
preference is "Decline to answer" and the repairer returns the first (and
only) option equal to it. -/
theorem C4_witness :
    optsEEO ≠ [] ∧ _repair_answer "q" (some optsEEO) "unknown" ∈ optsEEO ∧
    optsEEO.find? (fun o => pyLower (pyStrip o) == pyLower "Decline to answer")
      = some (_repair_answer "q" (some optsEEO) "unknown") :=
  have h := C4_theorem optsEEO "q" "unknown" (by decide)
  ⟨by decide, h.1, h.2.2 "Decline to answer" (by decide)⟩

/-- C5 counterexample: on the scenario request with parsed answer
"authorized" and parsed confidence 0.70, the predictor returns "Yes" with
confidence 0.75, not 0.70: the repair fallback, not the synonym step,
resolved the option, and its confidence floor was applied. -/
theorem C5_counterexample :
    (predict_answer envOK reqAuth (ModelOutcome.parsed dAuthorized)).1.answer = "Yes" ∧
    (predict_answer envOK reqAuth (ModelOutcome.parsed dAuthorized)).1.confidence = 0.75 ∧
    ¬ (predict_answer envOK reqAuth (ModelOutcome.parsed dAuthorized)).1.confidence = 0.70 := by
  have hc : (predict_answer envOK reqAuth (ModelOutcome.parsed dAuthorized)).1.confidence
      = c075 := by decide
  refine ⟨by decide, by rw [hc, c075_eq], by rw [hc, c075_eq]; norm_num⟩

/-- C5 (amended): on the scenario request the synonym step does not fire —
"authorized" is not a key of the synonym table (it is only a synonym value
listed under the key "yes") — the whole candidate resolution fails, and the
repair fallback returns the first option "Yes" while raising the clamped
confidence 0.70 to the floor 0.75. -/
theorem C5_theorem :
    SYNONYM_MAP.lookup "authorized" = none ∧
    resolveCandidate ["Yes", "No"] "authorized" = none ∧
    _repair_answer reqAuth.question reqAuth.options "workAuthorization.authorizedUS" = "Yes" ∧
    (predict_answer envOK reqAuth (ModelOutcome.parsed dAuthorized)).1.answer = "Yes" ∧
    (predict_answer envOK reqAuth (ModelOutcome.parsed dAuthorized)).1.confidence = c075 ∧
    c075 = 0.75 :=
  ⟨by decide, by decide, by decide, by decide, by decide, c075_eq⟩

/-- C6: on a store miss with a usable predictor result (answer "Yes",
confidence 0.9 ≥ 0.70) the facade persists nothing, whatever the save behavior of the store: inside the try block the source evaluates
`request.userEmail`, a field `AIRequest` does not declare, so an
AttributeError is raised before `save_pattern` is called and the bare
`except Exception: pass` swallows it; the response is returned unchanged. -/
theorem C6_code_bug_eval (save : SaveOutcome) :
    (predictFacade c090 none envOK reqAuth (ModelOutcome.parsed dYes) save).2 = none ∧
    (predictFacade c090 none envOK reqAuth (ModelOutcome.parsed dYes) save).1.answer = "Yes" ∧
    c070 ≤ (predictFacade c090 none envOK reqAuth (ModelOutcome.parsed dYes) save).1.confidence ∧
    (predictFacade c090 none envOK reqAuth (ModelOutcome.parsed dYes) save).1 =
      (predict_answer envOK reqAuth (ModelOutcome.parsed dYes)).1 := by
  cases save <;> exact ⟨rfl, by decide, by decide, by decide⟩

/-- C7: with either inference-service credential absent from the
environment the predictor returns exactly the empty answer, confidence 0.0
(`c000 = 0`), the reasoning "AWS Credentials Missing" and intent "unknown",
and control never reaches the Bedrock client section (second component
`false`), for every request and every would-be external outcome. -/
theorem C7_theorem (env : Env) (req : AIRequest) (ext : ModelOutcome)
    (h : credentialsMissing env = true) :
    predict_answer env req ext =
      ({ answer := "", confidence := c000,
         reasoning := some "AWS Credentials Missing", intent := some "unknown" }, false) ∧
    c000 = 0 := by
  refine ⟨?_, c000_eq⟩
  unfold predict_answer
  rw [if_pos h]

/-- C7 witness: an environment without the access key, on the scenario
request. -/
theorem C7_witness :
    credentialsMissing envNoCreds = true ∧
    predict_answer envNoCreds reqAuth (ModelOutcome.parsed dYes) =
      ({ answer := "", confidence := c000,
         reasoning := some "AWS Credentials Missing", intent := some "unknown" }, false) :=
  ⟨by decide, (C7_theorem envNoCreds reqAuth (ModelOutcome.parsed dYes) (by decide)).1⟩

/-- C8: for every raw intent (including an absent one) and every question
text, the Intent Normalizer returns a member of the Allowed Intent Set; as
a plain function of its arguments the embedded normalizer has no side
effects. -/
theorem C8_theorem (intent : Option String) (question : String) :
    _normalize_intent intent question ∈ ALLOWED_INTENTS :=
  normalize_intent_allowed intent question

/-- C9: when the parsed, non-forbidden answer is already a verbatim member
of the option list of the request, the predictor returns that answer unchanged
with its confidence exactly the standard clamp of the parsed confidence to
[0.70, 0.99] — no other adjustment. -/
theorem C9_theorem (env : Env) (req : AIRequest) (d : ParsedAI) (l : List String)
    (hcred : credentialsMissing env = false)
    (hopt : req.options = some l)
    (hforb : _is_forbidden_answer (pyStrip (d.answer.getD "")) = false)
    (hmem : pyStrip (d.answer.getD "") ∈ l) :
    (predict_answer env req (ModelOutcome.parsed d)).1.answer = pyStrip (d.answer.getD "") ∧
    (predict_answer env req (ModelOutcome.parsed d)).1.confidence =
      clampConf (d.confidence.getD 0.75) := by
  have hmem' : pyStrip (d.answer.getD "") ∈ req.options.getD [] := by rw [hopt]; exact hmem
  simp only [predict_answer, hcred, Bool.false_eq_true, if_false]
  show (postParse req d).answer = _ ∧ (postParse req d).confidence = _
  simp only [postParse]
  rw [if_neg (by simp [hforb]), if_neg (fun hand => hand.2 hmem')]
  exact ⟨rfl, by rw [← c075_eq]; rfl⟩

/-- C9 witness: the scenario request with parsed answer "Yes", a verbatim
member of its option list. -/
theorem C9_witness :
    credentialsMissing envOK = false ∧
    (predict_answer envOK reqAuth (ModelOutcome.parsed dYes)).1.answer =
      pyStrip (dYes.answer.getD "") :=
  ⟨by decide,
   (C9_theorem envOK reqAuth dYes ["Yes", "No"] (by decide) rfl (by decide) (by decide)).1⟩

/-- C10: a stored match whose answerMappings list is empty, or whose first
mapping has neither variants nor a canonical value, yields an empty
extracted answer, and the /predict flow on such a hit is identical — same
response, same persistence behavior — to the flow on a store miss. -/
theorem C10_theorem (pmConf : ℚ) (env : Env) (req : AIRequest) (ext : ModelOutcome)
    (save : SaveOutcome) (m : StoredMatch)
    (h : m.answerMappings.getD [] = [] ∨
      ∃ m0 rest, m.answerMappings.getD [] = m0 :: rest ∧
        m0.variants.getD [] = [] ∧ m0.canonicalValue.getD "" = "") :
    predictFacade pmConf (some m) env req ext save =
      predictFacade pmConf none env req ext save := by
  have hhit : hitAnswer m = "" := by
    rcases h with h0 | ⟨m0, rest, he, hv, hc⟩
    · simp only [hitAnswer, h0]
    · simp only [hitAnswer, he, hv, hc]
  simp only [predictFacade]
  rw [if_neg (fun hne => hne hhit)]

/-- C10 witness: a stored match with an empty answerMappings list falls
through to exactly the miss-path flow. -/
theorem C10_witness :
    mEmptyMappings.answerMappings.getD [] = [] ∧
    predictFacade c090 (some mEmptyMappings) envOK reqAuth (ModelOutcome.parsed dYes)
        SaveOutcome.ok =
      predictFacade c090 none envOK reqAuth (ModelOutcome.parsed dYes) SaveOutcome.ok :=
  ⟨by decide,
   C10_theorem c090 envOK reqAuth (ModelOutcome.parsed dYes) SaveOutcome.ok mEmptyMappings
     (Or.inl (by decide))⟩
